import Mathlib

/-
Verification of the Desktop-Schedule task-reminder application.

This file is a shallow embedding of the application's core logic:

* the `Task` data model (`types.ts`),
* the per-second reminder check `checkTasks` of `src/hooks/useTaskScheduler.ts`
  (embedded per task as `checkTask`, plus the loop `checkTasks` and the
  iterated-over-time driver `fireTimes`),
* the store mutations `toggleTask` and `deleteTask` of the application root
  component,
* the AI-gateway wrappers `categorizeTask` and `getDailySummary` of
  `services/gemini.ts`, with the network outcome made an explicit argument,
* the JSON persistence round trip performed by the root component via
  JSON.stringify / JSON.parse against local storage.

Modelling conventions:
* Wall-clock instants are epoch milliseconds as `Nat`.  A task's
  `remindTime`, an ISO-8601 string in the source, is abstracted to the epoch
  millisecond value the source immediately converts it to
  (`new Date(task.remindTime).getTime()`); every use of `remindTime` in the
  source goes through that conversion.
* The JavaScript `Date` accessors `getDay` / `getHours` / `getMinutes` are
  modelled against a fixed (UTC-like) timezone offset; the source uses the
  local system clock, and the spec declares no timezone handling beyond it.
* The process-lifetime notified set (a JS `Set<string>`) is a `List String`
  consulted only through membership, mirroring `has` / `add`.
* Asynchronous API calls cannot fail partway in the embedding; the outcome
  of the single network request (success payload or thrown error) is an
  explicit argument to the gateway functions.
-/

namespace DesktopSchedule

/-- The `TaskCategory` string enum of `types.ts`:
RESEARCH = 研發, ADMIN = 行政, PERSONAL = 個人, OTHER = 其他. -/
inductive TaskCategory where
  | RESEARCH
  | ADMIN
  | PERSONAL
  | OTHER
deriving DecidableEq, Repr

/-- The string value each `TaskCategory` enum member carries in `types.ts`. -/
def TaskCategory.value : TaskCategory → String
  | .RESEARCH => "研發"
  | .ADMIN => "行政"
  | .PERSONAL => "個人"
  | .OTHER => "其他"

/-- The `Task` interface of `types.ts`.  `remindTime` is the epoch
millisecond value of the stored ISO timestamp (see the header comment);
`repeatDays` holds weekday indices 0=Sunday .. 6=Saturday, empty meaning a
one-time task; `createdAt` is `Date.now()` at creation. -/
structure Task where
  id : String
  content : String
  remindTime : Nat
  repeatDays : List Nat
  category : TaskCategory
  isActive : Bool
  isCompleted : Bool
  createdAt : Nat
deriving DecidableEq, Repr

/-- `Date.prototype.getDay` on an epoch-millisecond instant (fixed timezone;
the epoch day 1970-01-01 was a Thursday, weekday index 4). -/
def getDay (t : Nat) : Nat := (t / 86400000 + 4) % 7

/-- `Date.prototype.getHours` on an epoch-millisecond instant. -/
def getHours (t : Nat) : Nat := t / 3600000 % 24

/-- `Date.prototype.getMinutes` on an epoch-millisecond instant. -/
def getMinutes (t : Nat) : Nat := t / 60000 % 60

/-- The de-duplication key built in `checkTasks`:
`task.id ++ "-" ++ taskTime.getTime()`. -/
def notificationKey (task : Task) : String :=
  task.id ++ "-" ++ toString task.remindTime

/-- The candidate window test of `checkTasks`:
`timeDiff <= 0 && timeDiff > -60000` where
`timeDiff = taskTime.getTime() - now.getTime()` (a signed quantity). -/
def inWindow (task : Task) (now : Nat) : Bool :=
  let timeDiff : Int := (task.remindTime : Int) - (now : Int)
  decide (timeDiff ≤ 0) && decide (timeDiff > -60000)

/-- The eligibility decision of `checkTasks` once a task is an unnotified
candidate: a one-time task (`repeatDays.length === 0`) always notifies; a
recurring task notifies only when today's weekday is in `repeatDays` and the
stored hour and minute equal the current hour and minute. -/
def shouldNotify (task : Task) (now : Nat) : Bool :=
  if task.repeatDays.length = 0 then
    true
  else if task.repeatDays.contains (getDay now) then
    decide (getHours task.remindTime = getHours now) &&
      decide (getMinutes task.remindTime = getMinutes now)
  else
    false

/-- The browser notification constructed by `checkTasks` when permission is
granted: a fixed title and the task content as body. -/
structure BrowserNote where
  title : String
  body : String
deriving DecidableEq, Repr

/-- Result of running the `checkTasks` loop body on one task: whether the
eligible branch was taken (`fired`, in which case the de-duplication key was
recorded), the `Notification` actually constructed (`delivered`, `none` when
permission is not granted or the task did not fire), and the updated
notified set. -/
structure CheckOutcome where
  fired : Bool
  delivered : Option BrowserNote
  notified : List String
deriving DecidableEq, Repr

/-- The body of the `tasks.forEach` loop in `checkTasks`
(src/hooks/useTaskScheduler.ts), for a single task:

* skip when `!task.isActive || task.isCompleted`;
* require `timeDiff <= 0 && timeDiff > -60000`;
* skip when the de-duplication key is already in the notified set;
* decide eligibility (`shouldNotify`);
* if eligible, construct the notification only when permission is granted,
  and add the key to the notified set unconditionally. -/
def checkTask (task : Task) (now : Nat) (permission : Bool)
    (notified : List String) : CheckOutcome :=
  if !task.isActive || task.isCompleted then
    ⟨false, none, notified⟩
  else if inWindow task now then
    if notified.contains (notificationKey task) then
      ⟨false, none, notified⟩
    else if shouldNotify task now then
      ⟨true,
       if permission then some ⟨"AI Smart Assistant 提醒", task.content⟩ else none,
       notificationKey task :: notified⟩
    else
      ⟨false, none, notified⟩
  else
    ⟨false, none, notified⟩

/-- The full `checkTasks` sweep: the `forEach` over the task list at one
instant, threading the shared notified set; returns the per-task outcomes in
order and the final notified set. -/
def checkTasks (tasks : List Task) (now : Nat) (permission : Bool)
    (notified : List String) : List CheckOutcome × List String :=
  match tasks with
  | [] => ([], notified)
  | t :: ts =>
    let r := checkTask t now permission notified
    let rest := checkTasks ts now permission r.notified
    (r :: rest.1, rest.2)

/-- Driver for the 1 Hz polling loop restricted to a single task: runs
`checkTask` at each instant of `times` in order, threading the notified set,
and returns the instants at which the task fired. -/
def fireTimes (task : Task) (permission : Bool)
    (notified : List String) : List Nat → List Nat
  | [] => []
  | t :: ts =>
    let r := checkTask task t permission notified
    if r.fired then t :: fireTimes task permission r.notified ts
    else fireTimes task permission r.notified ts

/-- `toggleTask` in the root component:
`tasks.map (t => t.id === id ? { ...t, isCompleted: !t.isCompleted } : t)`. -/
def toggleTask (id : String) (tasks : List Task) : List Task :=
  tasks.map fun t =>
    if t.id = id then { t with isCompleted := !t.isCompleted } else t

/-- `deleteTask` in the root component: `tasks.filter (t => t.id !== id)`. -/
def deleteTask (id : String) (tasks : List Task) : List Task :=
  tasks.filter fun t => t.id != id

/-- A concrete one-time task used as evaluation input: its `remindTime`
550800000 ms is 1970-01-07 09:00, a Wednesday (weekday index 3). -/
def sampleTask : Task where
  id := "t1"
  content := "Submit report"
  remindTime := 550800000
  repeatDays := []
  category := .OTHER
  isActive := true
  isCompleted := false
  createdAt := 0

/-- A concrete recurring task: same stored instant (Wednesday 09:00),
repeating on Monday and Wednesday. -/
def sampleRecurring : Task :=
  { sampleTask with repeatDays := [1, 3] }

/-- Outcome of the single `categorizeTask` attempt in `services/gemini.ts`
as observed by the surrounding try/catch: the `generateContent` request
threw, `JSON.parse(response.text || empty-object)` threw, or parsing
succeeded and yielded the `category` field of the result (`none` when the
field is absent or not a string). -/
inductive CategorizeOutcome where
  | requestError
  | jsonError
  | parsed (category : Option String)
deriving DecidableEq, Repr

/-- `categorizeTask` of `services/gemini.ts`, as a function of the request
outcome: any thrown error is caught and mapped to `OTHER`; a parsed category
string goes through the switch on 研發 / 行政 / 個人 with default `OTHER`.
The function is total: it never propagates an error to the caller. -/
def categorizeTask : CategorizeOutcome → TaskCategory
  | .requestError => .OTHER
  | .jsonError => .OTHER
  | .parsed none => .OTHER
  | .parsed (some s) =>
    if s = "研發" then .RESEARCH
    else if s = "行政" then .ADMIN
    else if s = "個人" then .PERSONAL
    else .OTHER

/-- Outcome of the single `generateContent` request in `getDailySummary`:
the request threw, or returned a response whose `text` field is modelled as
an `Option String` (`none` for an absent field). -/
inductive SummaryOutcome where
  | requestError
  | ok (text : Option String)
deriving DecidableEq, Repr

/-- The canned empty-state message returned by `getDailySummary` when the
task list is empty. -/
def emptyStateMessage : String := "目前沒有待辦事項。享受這美好的一天吧！"

/-- The fallback returned when the response has no usable text
(`response.text || fallback`). -/
def noSummaryMessage : String := "無法生成摘要。"

/-- The canned message returned when the summary request throws. -/
def connectionFailedMessage : String := "連線發生錯誤，無法生成摘要。"

/-- `getDailySummary` of `services/gemini.ts` as a function of the task
list and the request outcome.  Returns the displayed string together with a
flag recording whether the `generateContent` request was issued: an empty
list short-circuits to the canned empty-state message before any request.
`response.text || fallback` treats both an absent and an empty string text
as falsy.  A thrown request error is caught and mapped to the canned
connection-failure message; the function is total. -/
def getDailySummary (tasks : List Task) (api : SummaryOutcome) :
    String × Bool :=
  if tasks.length = 0 then
    (emptyStateMessage, false)
  else
    match api with
    | .ok (some s) => (if s = "" then noSummaryMessage else s, true)
    | .ok none => (noSummaryMessage, true)
    | .requestError => (connectionFailedMessage, true)

/-- JSON values, as produced by `JSON.stringify` / `JSON.parse` on the task
collection persisted to local storage. -/
inductive Json where
  | null
  | bool (b : Bool)
  | num (n : Nat)
  | str (s : String)
  | arr (elems : List Json)
  | obj (fields : List (String × Json))

/-- Field access on a parsed JSON object (`undefined`, i.e. `none`,
otherwise). -/
def Json.getField (j : Json) (name : String) : Option Json :=
  match j with
  | .obj fields => fields.lookup name
  | _ => none

/-- Read a JSON value as a string. -/
def Json.asStr : Json → Option String
  | .str s => some s
  | _ => none

/-- Read a JSON value as a number. -/
def Json.asNum : Json → Option Nat
  | .num n => some n
  | _ => none

/-- Read a JSON value as a boolean. -/
def Json.asBool : Json → Option Bool
  | .bool b => some b
  | _ => none

/-- Read a list of JSON values as numbers, failing if any is not one. -/
def Json.asNums : List Json → Option (List Nat)
  | [] => some []
  | j :: js => do
    let n ← j.asNum
    let ns ← Json.asNums js
    pure (n :: ns)

/-- Read a JSON value as an array of numbers (the `repeatDays` field). -/
def Json.asNumArr : Json → Option (List Nat)
  | .arr es => Json.asNums es
  | _ => none

/-- The category denoted by a JSON string: inverse of the `TaskCategory`
string-enum values. -/
def categoryOfValue (s : String) : Option TaskCategory :=
  if s = "研發" then some .RESEARCH
  else if s = "行政" then some .ADMIN
  else if s = "個人" then some .PERSONAL
  else if s = "其他" then some .OTHER
  else none

/-- `JSON.stringify` of one task: a JSON object with the task's fields in
declaration order.  The string enum `category` serializes to its string
value; `remindTime` is serialized verbatim (here, its abstracted
epoch-millisecond value). -/
def encodeTask (t : Task) : Json :=
  .obj [("id", .str t.id),
        ("content", .str t.content),
        ("remindTime", .num t.remindTime),
        ("repeatDays", .arr (t.repeatDays.map .num)),
        ("category", .str t.category.value),
        ("isActive", .bool t.isActive),
        ("isCompleted", .bool t.isCompleted),
        ("createdAt", .num t.createdAt)]

/-- Reading a parsed JSON value back as a `Task`: the root component casts
the result of `JSON.parse` to `Task[]` and the rest of the program reads the
fields as typed values; this is that field-wise reading, `none` when a field
is missing or has the wrong shape. -/
def decodeTask (j : Json) : Option Task := do
  let id ← (j.getField "id").bind Json.asStr
  let content ← (j.getField "content").bind Json.asStr
  let remindTime ← (j.getField "remindTime").bind Json.asNum
  let repeatDays ← (j.getField "repeatDays").bind Json.asNumArr
  let category ← ((j.getField "category").bind Json.asStr).bind categoryOfValue
  let isActive ← (j.getField "isActive").bind Json.asBool
  let isCompleted ← (j.getField "isCompleted").bind Json.asBool
  let createdAt ← (j.getField "createdAt").bind Json.asNum
  pure ⟨id, content, remindTime, repeatDays, category, isActive,
        isCompleted, createdAt⟩

/-- `JSON.stringify(tasks)`: a JSON array of the encoded tasks in order. -/
def encodeTasks (tasks : List Task) : Json :=
  .arr (tasks.map encodeTask)

/-- Reading a list of parsed JSON values back as tasks, in order. -/
def decodeTaskList : List Json → Option (List Task)
  | [] => some []
  | j :: js => do
    let t ← decodeTask j
    let ts ← decodeTaskList js
    pure (t :: ts)

/-- Reading a parsed JSON value back as a task collection. -/
def decodeTasks : Json → Option (List Task)
  | .arr es => decodeTaskList es
  | _ => none

/-! ## Helper lemmas about the reminder check -/

/-- The candidate window test, unfolded to the two integer inequalities. -/
theorem inWindow_iff (task : Task) (now : Nat) :
    inWindow task now = true ↔
      ((task.remindTime : Int) - (now : Int) ≤ 0 ∧
        (task.remindTime : Int) - (now : Int) > -60000) := by
  unfold inWindow
  simp only [Bool.and_eq_true, decide_eq_true_eq]

/-- Everything that must have held when a check fired: the task was active
and not completed, the window test passed, the key was not yet recorded,
and the eligibility test passed. -/
theorem checkTask_fired_inv (task : Task) (now : Nat) (perm : Bool)
    (notified : List String)
    (h : (checkTask task now perm notified).fired = true) :
    task.isActive = true ∧ task.isCompleted = false ∧
      inWindow task now = true ∧
      notified.contains (notificationKey task) = false ∧
      shouldNotify task now = true := by
  unfold checkTask at h
  by_cases h1 : (!task.isActive || task.isCompleted) = true
  · rw [if_pos h1] at h
    exact absurd h (by simp)
  · rw [if_neg h1] at h
    by_cases h2 : inWindow task now = true
    · rw [if_pos h2] at h
      by_cases h3 : notified.contains (notificationKey task) = true
      · rw [if_pos h3] at h
        exact absurd h (by simp)
      · rw [if_neg h3] at h
        by_cases h4 : shouldNotify task now = true
        · have h1' : task.isActive = true ∧ task.isCompleted = false := by
            simpa using h1
          exact ⟨h1'.1, h1'.2, h2, by simpa using h3, h4⟩
        · rw [if_neg h4] at h
          exact absurd h (by simp)
    · rw [if_neg h2] at h
      exact absurd h (by simp)

/-- What a recurring task's passed eligibility test says: today's weekday is
among the repeat days and the stored hour and minute equal the current
ones. -/
theorem shouldNotify_recurring (task : Task) (now : Nat)
    (hne : task.repeatDays ≠ [])
    (h : shouldNotify task now = true) :
    getDay now ∈ task.repeatDays ∧
      getHours task.remindTime = getHours now ∧
      getMinutes task.remindTime = getMinutes now := by
  unfold shouldNotify at h
  rw [if_neg (by simpa using hne)] at h
  by_cases hc : task.repeatDays.contains (getDay now) = true
  · rw [if_pos hc] at h
    simp only [Bool.and_eq_true, decide_eq_true_eq] at h
    exact ⟨by simpa using hc, h.1, h.2⟩
  · rw [if_neg hc] at h
    exact absurd h (by simp)

/-- A check that does not fire leaves the notified set unchanged. -/
theorem checkTask_notified_of_not_fired (task : Task) (now : Nat)
    (perm : Bool) (notified : List String)
    (h : (checkTask task now perm notified).fired = false) :
    (checkTask task now perm notified).notified = notified := by
  unfold checkTask at *
  split_ifs at * <;> simp_all

/-- A task whose de-duplication key is already recorded never fires, and
the notified set is unchanged. -/
theorem checkTask_of_contains (task : Task) (now : Nat) (perm : Bool)
    (notified : List String)
    (h : notified.contains (notificationKey task) = true) :
    (checkTask task now perm notified).fired = false ∧
      (checkTask task now perm notified).notified = notified := by
  unfold checkTask
  split_ifs <;> simp_all

/-- A fired check records exactly the task's de-duplication key on top of
the previous notified set. -/
theorem checkTask_notified_of_fired (task : Task) (now : Nat) (perm : Bool)
    (notified : List String)
    (h : (checkTask task now perm notified).fired = true) :
    (checkTask task now perm notified).notified =
      notificationKey task :: notified := by
  unfold checkTask at *
  split_ifs at * <;> simp_all

/-! ## Claim theorems -/

/-- C3: a notification fires only if `remindTime - now ≤ 0` and
`remindTime - now > -60` seconds, and, when `repeatDays` is non-empty, only
if `now`'s weekday is in `repeatDays` and the stored hour and minute equal
`now`'s hour and minute; a one-time task inside the window (active, not
completed, not yet notified) needs no further condition to fire. -/
theorem fire_conditions (task : Task) (now : Nat) (perm : Bool)
    (notified : List String) :
    ((checkTask task now perm notified).fired = true →
      ((task.remindTime : Int) - (now : Int) ≤ 0 ∧
        (task.remindTime : Int) - (now : Int) > -60000) ∧
      (task.repeatDays ≠ [] →
        getDay now ∈ task.repeatDays ∧
        getHours task.remindTime = getHours now ∧
        getMinutes task.remindTime = getMinutes now)) ∧
    (task.repeatDays = [] → task.isActive = true → task.isCompleted = false →
      notified.contains (notificationKey task) = false →
      (task.remindTime : Int) - (now : Int) ≤ 0 →
      (task.remindTime : Int) - (now : Int) > -60000 →
      (checkTask task now perm notified).fired = true) := by
  constructor
  · intro h
    obtain ⟨hact, hcomp, hwin, hnot, hshould⟩ :=
      checkTask_fired_inv task now perm notified h
    exact ⟨(inWindow_iff task now).mp hwin,
      fun hne => shouldNotify_recurring task now hne hshould⟩
  · intro hrep hact hcomp hnot hle hgt
    unfold checkTask
    rw [if_neg (by simp [hact, hcomp])]
    rw [if_pos ((inWindow_iff task now).mpr ⟨hle, hgt⟩)]
    rw [if_neg (by simpa using hnot)]
    rw [if_pos (by unfold shouldNotify; rw [if_pos (by simp [hrep])])]

/-- Witness for C3: the concrete one-time sample task fires at its own
stored instant. -/
theorem fire_conditions_witness :
    (checkTask sampleTask 550800000 true []).fired = true :=
  (fire_conditions sampleTask 550800000 true []).2 rfl rfl rfl
    (by decide) (by decide) (by decide)

/-- C4: a task with `isCompleted = true` or `isActive = false` never fires:
no notification is constructed and the notified set is unchanged, whatever
the times involved. -/
theorem completed_or_inactive_never_fires (task : Task) (now : Nat)
    (perm : Bool) (notified : List String)
    (h : task.isCompleted = true ∨ task.isActive = false) :
    (checkTask task now perm notified).fired = false ∧
      (checkTask task now perm notified).delivered = none ∧
      (checkTask task now perm notified).notified = notified := by
  unfold checkTask
  rcases h with h | h <;> rw [if_pos (by simp [h])] <;> simp

/-- Witness for C4: the completed variant of the sample task does not fire
even at the instant at which the uncompleted task fires. -/
theorem completed_or_inactive_never_fires_witness :
    (checkTask { sampleTask with isCompleted := true }
      550800000 true []).fired = false :=
  (completed_or_inactive_never_fires _ 550800000 true [] (Or.inl rfl)).1

/-- C5: the notified set after a check does not depend on whether
notification permission was granted; a fired check records the
de-duplication key (so a denied notification still consumes the
occurrence); and once the key is recorded the task never fires at any later
check against that set. -/
theorem eligible_consumes_occurrence_regardless_of_delivery (task : Task)
    (now : Nat) (notified : List String) :
    ((checkTask task now false notified).notified =
      (checkTask task now true notified).notified ∧
     (checkTask task now false notified).fired =
      (checkTask task now true notified).fired) ∧
    ((checkTask task now false notified).fired = true →
      (checkTask task now false notified).notified =
        notificationKey task :: notified) ∧
    (notified.contains (notificationKey task) = true →
      ∀ later perm2, (checkTask task later perm2 notified).fired = false) := by
  refine ⟨?_, ?_, ?_⟩
  · unfold checkTask
    split_ifs <;> simp_all
  · intro h
    exact checkTask_notified_of_fired task now false notified h
  · intro hmem later perm2
    exact (checkTask_of_contains task later perm2 notified hmem).1

/-- Witness for C5: at the sample task's stored instant with permission
denied, the key is still recorded. -/
theorem eligible_consumes_occurrence_regardless_of_delivery_witness :
    (checkTask sampleTask 550800000 false []).notified =
      [notificationKey sampleTask] :=
  (eligible_consumes_occurrence_regardless_of_delivery sampleTask
    550800000 []).2.1 (by decide)

/-- Once the task's key is in the notified set, no later check in a run
ever fires. -/
theorem fireTimes_nil_of_contains (task : Task) (perm : Bool)
    (notified : List String)
    (h : notified.contains (notificationKey task) = true) :
    ∀ ts : List Nat, fireTimes task perm notified ts = [] := by
  intro ts
  induction ts generalizing notified with
  | nil => rfl
  | cons t ts ih =>
    simp only [fireTimes]
    obtain ⟨hf, hn⟩ := checkTask_of_contains task t perm notified h
    rw [if_neg (by simp [hf])]
    rw [hn]
    exact ih notified h

/-- C2: a one-time task (empty `repeatDays`) that is active and not
completed, starting from a fresh notified set, fires at exactly the first
check instant falling in its 60-second window and at no other check of the
run, however many checks follow. -/
theorem one_time_task_fires_exactly_once (task : Task) (perm : Bool)
    (ts : List Nat) (hrep : task.repeatDays = [])
    (hact : task.isActive = true) (hcomp : task.isCompleted = false) :
    fireTimes task perm [] ts =
      (ts.filter (fun t => inWindow task t)).take 1 := by
  have key_fresh : ([] : List String).contains (notificationKey task) = false :=
    rfl
  -- generalize over any notified set not containing the key
  suffices h : ∀ (notified : List String),
      notified.contains (notificationKey task) = false →
      fireTimes task perm notified ts =
        (ts.filter (fun t => inWindow task t)).take 1 from
    h [] key_fresh
  induction ts with
  | nil => intro notified _; rfl
  | cons t ts ih =>
    intro notified hfresh
    simp only [fireTimes]
    by_cases hwin : inWindow task t = true
    · have hfired : (checkTask task t perm notified).fired = true := by
        have hw := (inWindow_iff task t).mp hwin
        exact (fire_conditions task t perm notified).2 hrep hact hcomp hfresh
          hw.1 hw.2
      rw [if_pos hfired]
      rw [checkTask_notified_of_fired task t perm notified hfired]
      rw [fireTimes_nil_of_contains task perm _ (by simp) ts]
      simp [hwin]
    · have hnotfired : (checkTask task t perm notified).fired = false := by
        rcases Bool.eq_false_or_eq_true (checkTask task t perm notified).fired
          with h | h
        · obtain ⟨_, _, hw, _, _⟩ := checkTask_fired_inv task t perm notified h
          exact absurd hw hwin
        · exact h
      rw [if_neg (by simp [hnotfired])]
      rw [checkTask_notified_of_not_fired task t perm notified hnotfired]
      rw [ih notified hfresh]
      have hwf : inWindow task t = false := by
        simpa using hwin
      simp [hwf]

/-- Witness for C2: the concrete one-time sample task, polled before,
inside (three times) and after its window, fires exactly at the first
in-window instant. -/
theorem one_time_task_fires_exactly_once_witness :
    fireTimes sampleTask true []
        [550700000, 550800000, 550801000, 550859000, 550860000] =
      [550800000] := by
  have h := one_time_task_fires_exactly_once sampleTask true
    [550700000, 550800000, 550801000, 550859000, 550860000] rfl rfl rfl
  rw [h]
  decide

/-- C1 is refuted by the code as written (the spec flags this in its design
notes): the concrete recurring Monday+Wednesday task stored at Wednesday
09:00 fires at its stored instant, yet on the following Wednesday at
09:00 — a qualifying weekday with matching hour and minute — the check can
never fire again, whatever the notified set and permission state, because
the 60-second candidate window is anchored to the stored `remindTime`
(and the de-duplication key, built from the stored millisecond value,
would also never change). -/
theorem recurring_task_never_fires_on_later_day :
    (checkTask sampleRecurring 550800000 true []).fired = true ∧
    getDay 1155600000 ∈ sampleRecurring.repeatDays ∧
    getHours sampleRecurring.remindTime = getHours 1155600000 ∧
    getMinutes sampleRecurring.remindTime = getMinutes 1155600000 ∧
    (∀ (notified : List String) (perm : Bool),
      (checkTask sampleRecurring 1155600000 perm notified).fired = false) := by
  refine ⟨by decide, by decide, by decide, by decide, ?_⟩
  intro notified perm
  rcases Bool.eq_false_or_eq_true
    (checkTask sampleRecurring 1155600000 perm notified).fired with h | h
  · obtain ⟨_, _, hw, _, _⟩ :=
      checkTask_fired_inv sampleRecurring 1155600000 perm notified h
    have hiv := (inWindow_iff sampleRecurring 1155600000).mp hw
    have hr : sampleRecurring.remindTime = 550800000 := rfl
    rw [hr] at hiv
    omega
  · exact h

/-- C6: `categorizeTask` always returns one of exactly the four enumeration
values, and on a request error, a parse error, or a missing category field
it returns `OTHER`; being a total function of the request outcome, it never
propagates an error to the caller. -/
theorem categorize_returns_enum_and_defaults_to_other :
    (∀ o : CategorizeOutcome,
      categorizeTask o = .RESEARCH ∨ categorizeTask o = .ADMIN ∨
        categorizeTask o = .PERSONAL ∨ categorizeTask o = .OTHER) ∧
    categorizeTask .requestError = .OTHER ∧
    categorizeTask .jsonError = .OTHER ∧
    categorizeTask (.parsed none) = .OTHER := by
  refine ⟨?_, rfl, rfl, rfl⟩
  have hall : ∀ c : TaskCategory,
      c = .RESEARCH ∨ c = .ADMIN ∨ c = .PERSONAL ∨ c = .OTHER := by
    intro c
    cases c <;> simp
  exact fun o => hall (categorizeTask o)

/-- C7: the daily summary on an empty task list is the canned empty-state
message and issues no request; on a non-empty list a failed request yields
the canned connection-failure message (and the request was issued), and the
displayed string is non-empty whatever the request outcome; the function is
total, never propagating an error to the caller. -/
theorem summary_empty_state_and_failure (tasks : List Task)
    (api : SummaryOutcome) :
    (tasks = [] → getDailySummary tasks api = (emptyStateMessage, false)) ∧
    (tasks ≠ [] →
      getDailySummary tasks .requestError = (connectionFailedMessage, true)) ∧
    (tasks ≠ [] → (getDailySummary tasks api).1 ≠ "") := by
  refine ⟨?_, ?_, ?_⟩
  · intro h
    unfold getDailySummary
    rw [if_pos (by simp [h])]
  · intro h
    unfold getDailySummary
    rw [if_neg (by simpa using h)]
  · intro h
    unfold getDailySummary
    rw [if_neg (by simpa using h)]
    match api with
    | .requestError => decide
    | .ok none => decide
    | .ok (some s) =>
      show (if s = "" then noSummaryMessage else s) ≠ ""
      by_cases hs : s = ""
      · rw [if_pos hs]
        decide
      · rw [if_neg hs]
        exact hs

/-- Witness for C7: concrete empty and singleton task lists under a failed
request. -/
theorem summary_empty_state_and_failure_witness :
    getDailySummary [] .requestError = (emptyStateMessage, false) ∧
    getDailySummary [sampleTask] .requestError =
      (connectionFailedMessage, true) :=
  ⟨(summary_empty_state_and_failure [] .requestError).1 rfl,
   (summary_empty_state_and_failure [sampleTask] .requestError).2.1
     (by simp)⟩

/-- Two applications of `toggleTask` with the same id restore the original
collection. -/
theorem toggleTask_involutive (id : String) (tasks : List Task) :
    toggleTask id (toggleTask id tasks) = tasks := by
  unfold toggleTask
  rw [List.map_map]
  have h : ∀ t : Task,
      ((fun t : Task =>
          if t.id = id then { t with isCompleted := !t.isCompleted } else t) ∘
        fun t : Task =>
          if t.id = id then { t with isCompleted := !t.isCompleted } else t) t
        = t := by
    intro t
    simp only [Function.comp_apply]
    by_cases ht : t.id = id
    · rw [if_pos ht]
      rw [if_pos (show (({ t with isCompleted := !t.isCompleted } : Task)).id
        = id from ht)]
      simp
    · rw [if_neg ht, if_neg ht]
  calc tasks.map _ = tasks.map (fun t => t) :=
        List.map_congr_left fun t _ => h t
    _ = tasks := by simp

/-- Iterating an involution an even number of steps is the identity. -/
theorem iterate_involution {α : Type} (f : α → α)
    (hf : ∀ x, f (f x) = x) : ∀ (k : Nat) (x : α), f^[2 * k] x = x := by
  intro k
  induction k with
  | zero => intro x; rfl
  | succ k ih =>
    intro x
    have : 2 * (k + 1) = 2 * k + 2 := by ring
    rw [this, Function.iterate_add_apply]
    rw [show f^[2] x = x from hf x]
    exact ih x

/-- C8: iterating `toggleTask` with a fixed id depends only on the parity
of the iteration count — in particular the final `isCompleted` value of the
task with that id depends only on n mod 2 — and deleting an id not present
in the collection leaves the collection unchanged. -/
theorem toggle_mod_two_and_delete_missing_noop (tasks : List Task)
    (id : String) (n : Nat) :
    (toggleTask id)^[n] tasks = (toggleTask id)^[n % 2] tasks ∧
    ((∀ t ∈ tasks, t.id ≠ id) → deleteTask id tasks = tasks) := by
  constructor
  · conv_lhs => rw [show n = n % 2 + 2 * (n / 2) from (Nat.mod_add_div n 2).symm]
    rw [Function.iterate_add_apply]
    rw [iterate_involution (toggleTask id) (toggleTask_involutive id) (n / 2)
      tasks]
  · intro h
    unfold deleteTask
    rw [List.filter_eq_self.mpr]
    intro t ht
    simpa using h t ht

/-- Witness for C8: three toggles on the sample singleton equal one toggle,
and deleting an absent id is a no-op. -/
theorem toggle_mod_two_and_delete_missing_noop_witness :
    (toggleTask "t1")^[3] [sampleTask] = (toggleTask "t1")^[3 % 2] [sampleTask] ∧
    deleteTask "missing" [sampleTask] = [sampleTask] :=
  ⟨(toggle_mod_two_and_delete_missing_noop [sampleTask] "t1" 3).1,
   (toggle_mod_two_and_delete_missing_noop [sampleTask] "missing" 3).2
     (by intro t ht; simp at ht; subst ht; decide)⟩

/-- A list of encoded numbers reads back as the original list. -/
theorem asNums_map_num (l : List Nat) :
    Json.asNums (l.map Json.num) = some l := by
  induction l with
  | nil => rfl
  | cons x xs ih => simp [Json.asNums, Json.asNum, ih]

/-- The category string values are read back to the members that carry
them. -/
theorem categoryOfValue_value (c : TaskCategory) :
    categoryOfValue c.value = some c := by
  cases c <;> rfl

/-- One encoded task reads back as itself. -/
theorem decode_encode_task (t : Task) : decodeTask (encodeTask t) = some t := by
  simp only [decodeTask, encodeTask, Json.getField, List.lookup, Json.asStr,
    Json.asNum, Json.asBool, Json.asNumArr, asNums_map_num,
    categoryOfValue_value]
  simp [asNums_map_num, categoryOfValue_value]

/-- C9: serializing the task collection to the persisted JSON form and
deserializing it back reproduces an equal collection — same ids, same
values for every field, same element order. -/
theorem serialization_round_trip (tasks : List Task) :
    decodeTasks (encodeTasks tasks) = some tasks := by
  have hlist : ∀ ts : List Task,
      decodeTaskList (ts.map encodeTask) = some ts := by
    intro ts
    induction ts with
    | nil => rfl
    | cons t ts ih => simp [decodeTaskList, decode_encode_task, ih]
  unfold decodeTasks encodeTasks
  exact hlist tasks

/-- C10: `toggleTask` preserves the collection's length and order; at every
position, a task whose id differs from the given id is completely
unchanged, and the task with the given id changes exactly its
`isCompleted` field. -/
theorem toggle_frame_conditions (tasks : List Task) (id : String) :
    (toggleTask id tasks).length = tasks.length ∧
    ∀ (i : Nat) (h : i < tasks.length),
      ((tasks.get ⟨i, h⟩).id ≠ id →
        (toggleTask id tasks)[i]? = some (tasks.get ⟨i, h⟩)) ∧
      ((tasks.get ⟨i, h⟩).id = id →
        (toggleTask id tasks)[i]? =
          some { tasks.get ⟨i, h⟩ with
                 isCompleted := !(tasks.get ⟨i, h⟩).isCompleted }) := by
  constructor
  · unfold toggleTask
    exact List.length_map tasks _
  · intro i h
    have hget : (toggleTask id tasks)[i]? =
        some (if (tasks.get ⟨i, h⟩).id = id then
          { tasks.get ⟨i, h⟩ with
            isCompleted := !(tasks.get ⟨i, h⟩).isCompleted }
        else tasks.get ⟨i, h⟩) := by
      unfold toggleTask
      rw [List.getElem?_map]
      rw [List.getElem?_eq_getElem h]
      rfl
    constructor
    · intro hne
      rw [hget, if_neg hne]
    · intro heq
      rw [hget, if_pos heq]

/-- Witness for C10: toggling the sample singleton by its own id flips only
`isCompleted` at position 0. -/
theorem toggle_frame_conditions_witness :
    (toggleTask "t1" [sampleTask])[0]? =
      some { sampleTask with isCompleted := !sampleTask.isCompleted } :=
  ((toggle_frame_conditions [sampleTask] "t1").2 0 (by decide)).2 rfl

end DesktopSchedule
